import Mathlib

/-!
Verification of the cylc task-scheduling core against its specification.

The development shallowly embeds the Python sources:
* `src/tasks.py` — `task_base`, `runahead_task_base` and the task-class
  hierarchy (states, requisite handling, dispatch, abdication, messages);
* `src/lib/cylc/task_message.py` — the job status file update;
* `src/lib/cylc/cycling/async.py` — the asynchronous cycler.

Modules of the repository that are not under `src/` (the `requisites` and
`reference_time` helper modules, and two constants from `cylc.task_outputs`)
are modelled from the specification; each such definition carries a doc
comment starting with `Modelled from the spec:`.
-/

namespace Cylc

/-! ### Requisite sets

The `requisites` module is imported by `src/tasks.py` but is not part of the
source tree, so it is modelled from the specification (§3, §4.2): a requisite
set is a collection of unique text tokens, each with a satisfied flag.
-/

/-- Modelled from the spec: a requisite set is a list of (token, satisfied)
pairs; tokens are unique within one set. -/
abbrev Reqs : Type := List (String × Bool)

namespace Reqs

/-- Modelled from the spec: `all_satisfied()` — conjunction of the flags. -/
def all_satisfied (rs : Reqs) : Bool :=
  List.all rs (fun p => p.2)

/-- Modelled from the spec: `requisite_exists(token)` — membership test. -/
def requisite_exists (rs : Reqs) (m : String) : Bool :=
  List.any rs (fun p => p.1 == m)

/-- Modelled from the spec: `is_satisfied(token)` — the token is present with
its flag set. -/
def is_satisfied (rs : Reqs) (m : String) : Bool :=
  List.any rs (fun p => p.1 == m && p.2)

/-- Modelled from the spec: `set_satisfied(token)` — mark the named requisite
satisfied. -/
def set_satisfied (rs : Reqs) (m : String) : Reqs :=
  List.map (fun p => if p.1 == m then (p.1, true) else p) rs

/-- Modelled from the spec: `set_all_satisfied()` — bulk transition used when
seeding an instance in the finished state. -/
def set_all_satisfied (rs : Reqs) : Reqs :=
  List.map (fun p => (p.1, true)) rs

/-- Modelled from the spec: `satisfy_me(other)` — for each of my requisites,
if the other set holds it satisfied, mark mine satisfied (exact variant). -/
def satisfy_me (mine others : Reqs) : Reqs :=
  List.map (fun p => if is_satisfied others p.1 then (p.1, true) else p) mine

/-- Fresh requisite set built from a token list, nothing satisfied yet. -/
def fresh (tokens : List String) : Reqs :=
  tokens.map (fun t => (t, false))

end Reqs

/-! ### Task instances (`src/tasks.py`, class `task_base`) -/

/-- The task state strings used by `task_base`: "waiting", "running",
"finished". -/
inductive TState where
  | waiting
  | running
  | finished
deriving DecidableEq, Repr

/-- A task instance: the mutable per-instance attributes of `task_base`.
`ref_time` is carried as the numeric value of the 10-character stamp
(`int(self.ref_time)`), which is how `run_if_ready` compares instances. -/
structure Task where
  name : String
  ref_time : Nat
  state : TState
  prerequisites : Reqs
  postrequisites : Reqs
  latest_message : String
  abdicated : Bool
deriving DecidableEq

/-- Outcome of a fatal constructor path. `systemExit` models the
`sys.exit(1)` call in `task_base.__init__`, which raises `SystemExit` and
terminates the scheduler process. -/
inductive InitError where
  | systemExit
deriving DecidableEq, Repr

/-- `task_base.__init__` (src/tasks.py lines 42-74), taking the requisite
token lists prepared by the derived-class constructor.  Initial states:
empty, "waiting", "finished" (postrequisites bulk-satisfied), "ready"
(prerequisites bulk-satisfied); anything else logs critical and calls
`sys.exit(1)`. -/
def task_init (name : String) (ref_time : Nat) (pre post : List String)
    (initial_state : String) : Except InitError Task :=
  let base : Task :=
    { name := name, ref_time := ref_time, state := TState.waiting,
      prerequisites := Reqs.fresh pre, postrequisites := Reqs.fresh post,
      latest_message := "", abdicated := false }
  if initial_state = "" then Except.ok base
  else if initial_state = "waiting" then Except.ok base
  else if initial_state = "finished" then
    Except.ok { base with
      postrequisites := Reqs.set_all_satisfied base.postrequisites,
      state := TState.finished }
  else if initial_state = "ready" then
    Except.ok { base with
      prerequisites := Reqs.set_all_satisfied base.prerequisites,
      state := TState.waiting }
  else Except.error InitError.systemExit

/-- `task_base.run_if_ready` (src/tasks.py lines 112-137).  Returns the
updated instance and whether an external job was launched.  The blocking
loop returns as soon as some same-name instance in the pool with a strictly
smaller numeric `ref_time` is not finished.  In dummy mode
(`dummy_clock_rate` truthy, i.e. nonzero) `run_external_dummy` launches the
dummy job and sets the state to running; otherwise the base-class
`run_external_task` only logs a critical message (derived classes in
src/tasks.py do not override it), launching nothing and changing no state. -/
def run_if_ready (self : Task) (tasks : List Task) (dummy_clock_rate : Nat) :
    Task × Bool :=
  if tasks.any (fun t =>
      t.name == self.name && !(t.state == TState.finished)
        && decide (t.ref_time < self.ref_time)) then
    (self, false)
  else if self.state == TState.finished then (self, false)
  else if self.state == TState.running then (self, false)
  else if Reqs.all_satisfied self.prerequisites then
    if dummy_clock_rate != 0 then
      ({ self with state := TState.running }, true)
    else
      (self, false)
  else (self, false)

/-- `runahead_task_base.MAX_FINISHED` (src/tasks.py line 261): the constructor
always sets it to 4. -/
def MAX_FINISHED : Nat := 4

/-- `runahead_task_base.run_if_ready` (src/tasks.py lines 268-287): when the
instance is waiting and at least `MAX_FINISHED` same-name finished instances
are in the pool, delay (do nothing); otherwise defer to
`task_base.run_if_ready`. -/
def runahead_run_if_ready (self : Task) (tasks : List Task)
    (dummy_clock_rate : Nat) : Task × Bool :=
  if self.state == TState.waiting
      && decide (MAX_FINISHED ≤ (tasks.filter (fun t =>
          t.name == self.name && t.state == TState.finished)).length) then
    (self, false)
  else
    run_if_ready self tasks dummy_clock_rate

/-- `task_base.set_finished` (src/tasks.py lines 159-161). -/
def set_finished (self : Task) : Task :=
  { self with state := TState.finished }

/-- `task_base.abdicate` (src/tasks.py lines 163-168): returns true and flips
the one-shot flag only when finished and not already abdicated. -/
def abdicate (self : Task) : Task × Bool :=
  if self.state == TState.finished && !self.abdicated then
    ({ self with abdicated := true }, true)
  else
    (self, false)

/-- `task_base.get_satisfaction` (src/tasks.py lines 170-173): fold
`satisfy_me` over the pool. -/
def get_satisfaction (self : Task) (tasks : List Task) : Task :=
  { self with prerequisites :=
      (tasks.foldl (fun pr t => Reqs.satisfy_me pr t.postrequisites)
        self.prerequisites) }

/-- The postrequisite-marking step of `task_base.incoming` (src/tasks.py
lines 231-248): a recognised postrequisite is marked satisfied (with a
warning if already satisfied); a non-postrequisite message is only logged at
its priority; a non-running receiver only triggers a warning. -/
def incoming_mark (s : Task) (message : String) : Task :=
  if Reqs.requisite_exists s.postrequisites message then
    { s with postrequisites := Reqs.set_satisfied s.postrequisites message }
  else
    s

/-- `task_base.incoming` (src/tasks.py lines 218-251): record the latest
message, process it via `incoming_mark`, then set the state to finished iff
all postrequisites are now satisfied. -/
def incoming (self : Task) (priority : String) (message : String) : Task :=
  let s2 : Task := incoming_mark { self with latest_message := message } message
  if Reqs.all_satisfied s2.postrequisites then set_finished s2 else s2

/-- The operations the scheduler may invoke on one instance (src/tasks.py);
used to state preservation of invariants by every operation. -/
inductive Op where
  | incomingOp (priority message : String)
  | runIfReadyOp (tasks : List Task) (rate : Nat)
  | runaheadRunIfReadyOp (tasks : List Task) (rate : Nat)
  | abdicateOp
  | setFinishedOp
  | getSatisfactionOp (tasks : List Task)

/-- Apply one operation to an instance. -/
def apply_op (s : Task) : Op → Task
  | Op.incomingOp p m => incoming s p m
  | Op.runIfReadyOp ts r => (run_if_ready s ts r).1
  | Op.runaheadRunIfReadyOp ts r => (runahead_run_if_ready s ts r).1
  | Op.abdicateOp => (abdicate s).1
  | Op.setFinishedOp => set_finished s
  | Op.getSatisfactionOp ts => get_satisfaction s ts

/-- Run a sequence of operations, counting how many `abdicate` calls
returned true. -/
def abdicate_true_count (s : Task) : List Op → Nat
  | [] => 0
  | op :: ops =>
      (match op with
        | Op.abdicateOp => if (abdicate s).2 then 1 else 0
        | _ => 0)
      + abdicate_true_count (apply_op s op) ops

/-- A concrete earlier instance used by witnesses. -/
def wTaskA : Task := ⟨"x", 1, TState.waiting, [], [("p", false)], "", false⟩

/-- A concrete later instance used by witnesses. -/
def wTaskB : Task := ⟨"x", 2, TState.waiting, [], [("q", false)], "", false⟩

/-- Concrete waiting runahead instance used by the C2 witness. -/
def wSelfC2 : Task := ⟨"x", 5, TState.waiting, [], [("q", false)], "", false⟩

/-- Concrete pool with four finished same-class instances, for the C2
witness. -/
def wPoolC2 : List Task :=
  [⟨"x", 1, TState.finished, [], [("p", true)], "", false⟩,
   ⟨"x", 2, TState.finished, [], [("p", true)], "", false⟩,
   ⟨"x", 3, TState.finished, [], [("p", true)], "", false⟩,
   ⟨"x", 4, TState.finished, [], [("p", true)], "", false⟩,
   wSelfC2]

/-- Concrete running instance used by the C3 and C8 witnesses. -/
def wTaskC3 : Task :=
  ⟨"x", 1, TState.running, [], [("p", false), ("q", true)], "", false⟩

/-- Concrete finished, not yet abdicated instance used by the C7 witness. -/
def wTaskC7 : Task :=
  ⟨"x", 1, TState.finished, [], [("p", true)], "", false⟩

/-! ### Reference-time arithmetic

The `reference_time` module is imported by `src/tasks.py` but is not part of
the source tree; it is modelled from the specification (§4.1): a well-formed
10-character stamp `YYYYMMDDHH` denotes a proleptic-Gregorian calendar time
at hour granularity, so stamps correspond bijectively and monotonically to
hour counts.  A stamp is represented here by its total hour count; the
hour-of-day field `stamp[8:10]` is the count modulo 24, and
`increment(stamp, h)` adds `h` hours. -/

/-- Modelled from the spec: `reference_time.increment(stamp, hours)` on the
hour-count representation of well-formed stamps. -/
def increment (rt : Nat) (hours : Nat) : Nat := rt + hours

/-- `task_base.nearest_ref_time` (src/tasks.py lines 76-93), for a task
whose class currently has the given `valid_hours` list.  Faithful to the
source, including the aliasing of `foo` to `self.valid_hours`: the function
returns the adjusted stamp together with the (mutated) `valid_hours` list,
which has gained the sentinel entry `24 + valid_hours[0]`.  `none` models
the `IndexError` on an empty list and the `TypeError` of
`increment(rt, None)` when no valid hour qualifies. -/
def nearest_ref_time (valid_hours : List Nat) (rt : Nat) :
    Option (Nat × List Nat) :=
  match valid_hours with
  | [] => none
  | first_vh :: rest =>
    match ((first_vh :: rest) ++ [24 + first_vh]).find?
        (fun vh => decide (rt % 24 ≤ vh)) with
    | some vh =>
        some (increment rt (vh - rt % 24),
          (first_vh :: rest) ++ [24 + first_vh])
    | none => none

/-- `task_base.next_ref_time` (src/tasks.py lines 96-109): advance to the
next valid hour, wrapping past the last one.  `none` models the
`ValueError` of `list.index` when the current hour is not in the list. -/
def next_ref_time (valid_hours : List Nat) (rt : Nat) : Option Nat :=
  if valid_hours.length = 1 then
    some (increment rt 24)
  else
    match valid_hours.findIdx? (fun v => v == rt % 24) with
    | none => none
    | some i =>
      if i < valid_hours.length - 1 then
        some (increment rt
          (valid_hours.getD (i + 1) 0 - valid_hours.getD i 0))
      else
        some (increment rt
          (valid_hours.getD 0 0 + 24 - valid_hours.getD i 0))

/-! ### Decimal strings (Python's `str` and `int` on integers)

Used by `src/lib/cylc/cycling/async.py` (`str(int(tag) + 1)` etc.) and by
the job-PID line of `src/lib/cylc/task_message.py`.  Text is represented as
`List Char` throughout this part of the development. -/

/-- The decimal digit characters. -/
def digitChar : Nat → Char
  | 0 => '0'
  | 1 => '1'
  | 2 => '2'
  | 3 => '3'
  | 4 => '4'
  | 5 => '5'
  | 6 => '6'
  | 7 => '7'
  | 8 => '8'
  | 9 => '9'
  | _ => '?'

/-- Numeric value of a digit character. -/
def charToDigit (c : Char) : Nat := c.toNat - 48

/-- The canonical decimal representation of a natural number (Python's
`str` on a nonnegative int). -/
def natToStr (n : Nat) : List Char :=
  if n = 0 then ['0'] else (Nat.digits 10 n).reverse.map digitChar

/-- Parse a nonempty, all-digit string (leading zeros allowed). -/
def parseDigits (cs : List Char) : Option Nat :=
  if cs = [] then none
  else if cs.all Char.isDigit then
    some (Nat.ofDigits 10 (cs.map charToDigit).reverse)
  else none

/-- Python's `str` on an integer. -/
def pyStr (z : Int) : List Char :=
  if z < 0 then '-' :: natToStr z.natAbs else natToStr z.toNat

/-- Python's `int` on a decimal string: an optional minus sign followed by
one or more digits (leading zeros allowed); `none` models `ValueError`. -/
def pyInt (cs : List Char) : Option Int :=
  match cs with
  | [] => none
  | c :: _ =>
    if c = '-' then (parseDigits cs.tail).map (fun n => -(n : Int))
    else (parseDigits cs).map (fun n => (n : Int))

end Cylc

/-! ### The asynchronous cycler (src/lib/cylc/cycling/async.py) -/

namespace Cylc.async

/-- `async.next`: `str(int(tag) + 1)`. -/
def next (tag : List Char) : Option (List Char) :=
  (Cylc.pyInt tag).map (fun x => Cylc.pyStr (x + 1))

/-- `async.offset`: `str(int(tag) - int(n))`. -/
def offset (tag n : List Char) : Option (List Char) :=
  match Cylc.pyInt tag, Cylc.pyInt n with
  | some x, some y => some (Cylc.pyStr (x - y))
  | _, _ => none

/-- `async.initial_adjust_up`: the identity. -/
def initial_adjust_up (tag : List Char) : List Char := tag

/-- `async.valid`: always true. -/
def valid (tag : List Char) : Bool := true

end Cylc.async

/-! ### The job status file (src/lib/cylc/task_message.py) -/

namespace Cylc.TaskMessage

/-- `TaskMessage.CYLC_MESSAGE`. -/
def CYLC_MESSAGE : List Char := "CYLC_MESSAGE".toList

/-- `TaskMessage.CYLC_JOB_PID`. -/
def CYLC_JOB_PID : List Char := "CYLC_JOB_PID".toList

/-- `TaskMessage.CYLC_JOB_INIT_TIME`. -/
def CYLC_JOB_INIT_TIME : List Char := "CYLC_JOB_INIT_TIME".toList

/-- `TaskMessage.CYLC_JOB_EXIT`. -/
def CYLC_JOB_EXIT : List Char := "CYLC_JOB_EXIT".toList

/-- `TaskMessage.CYLC_JOB_EXIT_TIME`. -/
def CYLC_JOB_EXIT_TIME : List Char := "CYLC_JOB_EXIT_TIME".toList

/-- `TaskMessage.ABORT_MESSAGE_PREFIX` (the name here drops the last word of
the Python constant). -/
def ABORT_MESSAGE_PRE : List Char := "Task job script aborted with ".toList

/-- `TaskMessage.FAIL_MESSAGE_PREFIX`. -/
def FAIL_MESSAGE_PRE : List Char := "Task job script received signal ".toList

/-- `TaskMessage.VACATION_MESSAGE_PREFIX`. -/
def VACATION_MESSAGE_PRE : List Char :=
  "Task job script vacated by signal ".toList

/-- Modelled from the spec: `TASK_OUTPUT_STARTED` comes from
`cylc.task_outputs`, which is not under src/; its value is the task output
keyword "started". -/
def TASK_OUTPUT_STARTED : List Char := "started".toList

/-- Modelled from the spec: `TASK_OUTPUT_SUCCEEDED` from
`cylc.task_outputs` (not under src/); value "succeeded", written upper-case
in the exit record. -/
def TASK_OUTPUT_SUCCEEDED : List Char := "succeeded".toList

/-- `TASK_OUTPUT_SUCCEEDED.upper()`. -/
def TASK_OUTPUT_SUCCEEDED_UPPER : List Char := "SUCCEEDED".toList

/-- The ambient data of one `TaskMessage.send` call: the event time, the
severity, and `os.getppid()`. -/
structure MsgEnv where
  true_event_time : List Char
  severity : List Char
  ppid : Nat

/-- The `CYLC_MESSAGE=<time>|<severity>|<message>` record. -/
def cylcMessageLine (env : MsgEnv) (message : List Char) : List Char :=
  CYLC_MESSAGE ++ '=' :: (env.true_event_time ++ '|'
    :: (env.severity ++ '|' :: message))

/-- One iteration of the message loop of
`TaskMessage._update_job_status_file` (src/lib/cylc/task_message.py lines
222-269).  The status file is a list of `KEY=VALUE` lines.  On a vacation
message the file is rewritten keeping, in order, exactly the lines that do
not start with `CYLC_JOB_`, then the `CYLC_MESSAGE` record is appended. -/
def jobStatusStep (env : MsgEnv) (file : List (List Char))
    (message : List Char) : List (List Char) :=
  if message = TASK_OUTPUT_STARTED then
    file
      ++ (if 1 < env.ppid
          then [CYLC_JOB_PID ++ '=' :: Cylc.natToStr env.ppid] else [])
      ++ [CYLC_JOB_INIT_TIME ++ '=' :: env.true_event_time]
  else if message = TASK_OUTPUT_SUCCEEDED then
    file ++ [CYLC_JOB_EXIT ++ '=' :: TASK_OUTPUT_SUCCEEDED_UPPER,
             CYLC_JOB_EXIT_TIME ++ '=' :: env.true_event_time]
  else if FAIL_MESSAGE_PRE.isPrefixOf message then
    file ++ [CYLC_JOB_EXIT ++ '=' :: message.drop FAIL_MESSAGE_PRE.length,
             CYLC_JOB_EXIT_TIME ++ '=' :: env.true_event_time]
  else if ABORT_MESSAGE_PRE.isPrefixOf message then
    file ++ [CYLC_JOB_EXIT ++ '=' :: message.drop ABORT_MESSAGE_PRE.length,
             CYLC_JOB_EXIT_TIME ++ '=' :: env.true_event_time]
  else if VACATION_MESSAGE_PRE.isPrefixOf message then
    (file.filter (fun line => !("CYLC_JOB_".toList.isPrefixOf line)))
      ++ [cylcMessageLine env message]
  else
    file ++ [cylcMessageLine env message]

/-- `TaskMessage._update_job_status_file`: fold the per-message step over
the message list. -/
def update_job_status_file (env : MsgEnv) (file : List (List Char))
    (messages : List (List Char)) : List (List Char) :=
  messages.foldl (jobStatusStep env) file

end Cylc.TaskMessage

namespace Cylc

/-- C1: if a not-finished instance `A` of the same class with a strictly
smaller `ref_time` is in the pool, `B.run_if_ready` returns with `B`
unchanged (so `B` does not enter running) and launches no external job. -/
theorem c1_within_class_serialisation
    (pool : List Task) (A B : Task) (rate : Nat)
    (hmem : A ∈ pool) (hname : A.name = B.name)
    (hlt : A.ref_time < B.ref_time) (hA : A.state ≠ TState.finished) :
    run_if_ready B pool rate = (B, false) := by
  unfold run_if_ready
  rw [if_pos]
  exact List.any_eq_true.mpr
    ⟨A, hmem, by simp [hname, hlt, hA]⟩

/-- Witness for C1 at a concrete pool. -/
theorem c1_witness :
    wTaskA ∈ [wTaskA, wTaskB] ∧ wTaskA.name = wTaskB.name
      ∧ wTaskA.ref_time < wTaskB.ref_time ∧ wTaskA.state ≠ TState.finished
      ∧ run_if_ready wTaskB [wTaskA, wTaskB] 1 = (wTaskB, false) :=
  ⟨List.mem_cons_self _ _, rfl, by decide, by decide,
    c1_within_class_serialisation [wTaskA, wTaskB] wTaskA wTaskB 1
      (List.mem_cons_self _ _) rfl (by decide) (by decide)⟩

/-- C2: for a waiting runahead-limited instance, `run_if_ready` holds the
instance (no state change, no launch) whenever the pool already contains
`MAX_FINISHED` (= 4) or more finished same-class instances, regardless of
prerequisites; and it can move the instance to running only when that count
is strictly below `MAX_FINISHED`. -/
theorem c2_runahead_limit (self : Task) (pool : List Task) (rate : Nat)
    (hw : self.state = TState.waiting) :
    MAX_FINISHED = 4
    ∧ (MAX_FINISHED ≤ (pool.filter (fun t =>
          t.name == self.name && t.state == TState.finished)).length →
        runahead_run_if_ready self pool rate = (self, false))
    ∧ ((runahead_run_if_ready self pool rate).1.state = TState.running →
        (pool.filter (fun t =>
          t.name == self.name && t.state == TState.finished)).length
            < MAX_FINISHED) := by
  refine ⟨rfl, ?_, ?_⟩
  · intro hcnt
    unfold runahead_run_if_ready
    rw [if_pos]
    simp [hw, hcnt]
  · intro hrun
    by_contra hge
    push_neg at hge
    have hdone : runahead_run_if_ready self pool rate = (self, false) := by
      unfold runahead_run_if_ready
      rw [if_pos]
      simp [hw, hge]
    rw [hdone] at hrun
    rw [hw] at hrun
    exact absurd hrun (by decide)

/-- Witness for C2 at a concrete pool holding four finished instances. -/
theorem c2_witness :
    wSelfC2.state = TState.waiting
    ∧ (MAX_FINISHED = 4
      ∧ (MAX_FINISHED ≤ (wPoolC2.filter (fun t =>
            t.name == wSelfC2.name && t.state == TState.finished)).length →
          runahead_run_if_ready wSelfC2 wPoolC2 1 = (wSelfC2, false))
      ∧ ((runahead_run_if_ready wSelfC2 wPoolC2 1).1.state = TState.running →
          (wPoolC2.filter (fun t =>
            t.name == wSelfC2.name && t.state == TState.finished)).length
              < MAX_FINISHED)) :=
  ⟨rfl, c2_runahead_limit wSelfC2 wPoolC2 1 rfl⟩

/-- A fresh nonempty requisite set is not all-satisfied. -/
theorem Reqs.all_satisfied_fresh_eq_false (tokens : List String)
    (h : tokens ≠ []) :
    Reqs.all_satisfied (Reqs.fresh tokens) = false := by
  cases tokens with
  | nil => exact absurd rfl h
  | cons a l => simp [Reqs.all_satisfied, Reqs.fresh]

/-- After `set_all_satisfied` every flag is set. -/
theorem Reqs.all_satisfied_set_all (rs : Reqs) :
    Reqs.all_satisfied (Reqs.set_all_satisfied rs) = true := by
  simp [Reqs.all_satisfied, Reqs.set_all_satisfied]

/-- `set_satisfied` never unsets a flag, so an all-satisfied set stays
all-satisfied. -/
theorem Reqs.all_satisfied_set_satisfied_mono (rs : Reqs) (m : String)
    (h : Reqs.all_satisfied rs = true) :
    Reqs.all_satisfied (Reqs.set_satisfied rs m) = true := by
  simp only [Reqs.all_satisfied, Reqs.set_satisfied, List.all_eq_true,
    List.mem_map] at h ⊢
  rintro b ⟨p, hp, rfl⟩
  split
  · rfl
  · exact h p hp

/-- Postrequisites after `incoming_mark`. -/
theorem incoming_mark_postrequisites (s : Task) (m : String) :
    (incoming_mark s m).postrequisites =
      (if Reqs.requisite_exists s.postrequisites m
       then Reqs.set_satisfied s.postrequisites m
       else s.postrequisites) := by
  unfold incoming_mark
  split <;> rfl

/-- `incoming_mark` does not touch the state. -/
theorem incoming_mark_state (s : Task) (m : String) :
    (incoming_mark s m).state = s.state := by
  unfold incoming_mark
  split <;> rfl

/-- The postrequisites after `incoming`: marked satisfied when the message
names an existing postrequisite, unchanged otherwise. -/
theorem incoming_postrequisites_eq (t : Task) (pr m : String) :
    (incoming t pr m).postrequisites =
      (if Reqs.requisite_exists t.postrequisites m
       then Reqs.set_satisfied t.postrequisites m
       else t.postrequisites) := by
  simp only [incoming]
  split <;> simp [set_finished, incoming_mark_postrequisites]

/-- The state after `incoming`: finished when all postrequisites are now
satisfied, otherwise the prior state is kept. -/
theorem incoming_state_eq (t : Task) (pr m : String) :
    (incoming t pr m).state =
      (if Reqs.all_satisfied (incoming t pr m).postrequisites
       then TState.finished
       else t.state) := by
  by_cases h : Reqs.all_satisfied
      ((incoming_mark { t with latest_message := m } m).postrequisites) = true
  · have h1 : incoming t pr m =
        set_finished (incoming_mark { t with latest_message := m } m) := by
      simp only [incoming]
      rw [if_pos h]
    rw [h1]
    simp only [set_finished]
    rw [if_pos h]
  · have h1 : incoming t pr m =
        incoming_mark { t with latest_message := m } m := by
      simp only [incoming]
      rw [if_neg h]
    rw [h1, if_neg h, incoming_mark_state]

/-- `incoming` preserves the invariant `state = finished ↔ all
postrequisites satisfied`. -/
theorem incoming_preserves_finished_iff (t : Task) (pr m : String)
    (hinv : t.state = TState.finished ↔
      Reqs.all_satisfied t.postrequisites = true) :
    (incoming t pr m).state = TState.finished ↔
      Reqs.all_satisfied (incoming t pr m).postrequisites = true := by
  rw [incoming_state_eq t pr m]
  by_cases hall : Reqs.all_satisfied (incoming t pr m).postrequisites = true
  · simp [hall]
  · simp only [hall, if_false, ite_false]
    constructor
    · intro hfin
      have hallt : Reqs.all_satisfied t.postrequisites = true := hinv.mp hfin
      have : Reqs.all_satisfied (incoming t pr m).postrequisites = true := by
        rw [incoming_postrequisites_eq]
        split
        · exact Reqs.all_satisfied_set_satisfied_mono _ _ hallt
        · exact hallt
      exact absurd this hall
    · intro hfalse
      exact absurd hfalse (by simp [hall])

/-- C3: after construction (nonempty postrequisite template) and after any
`incoming` call, the state is finished iff all postrequisites are satisfied;
and for a running instance, `incoming` moves it to finished exactly when the
message completes the postrequisite set. -/
theorem c3_finished_iff_postrequisites :
    (∀ name rt pre post st t, post ≠ [] →
        task_init name rt pre post st = Except.ok t →
        (t.state = TState.finished ↔
          Reqs.all_satisfied t.postrequisites = true))
    ∧ (∀ (t : Task) (pr m : String),
        (t.state = TState.finished ↔
          Reqs.all_satisfied t.postrequisites = true) →
        ((incoming t pr m).state = TState.finished ↔
          Reqs.all_satisfied (incoming t pr m).postrequisites = true))
    ∧ (∀ (t : Task) (pr m : String), t.state = TState.running →
        (t.state = TState.finished ↔
          Reqs.all_satisfied t.postrequisites = true) →
        ((incoming t pr m).state = TState.finished ↔
          (Reqs.all_satisfied (incoming t pr m).postrequisites = true
            ∧ Reqs.all_satisfied t.postrequisites = false))) := by
  refine ⟨?_, incoming_preserves_finished_iff, ?_⟩
  · intro name rt pre post st t hpost hinit
    unfold task_init at hinit
    split_ifs at hinit <;>
      first
      | (injection hinit with h; subst h;
         simp [Reqs.all_satisfied_fresh_eq_false post hpost,
           Reqs.all_satisfied_set_all])
      | exact Except.noConfusion hinit
  · intro t pr m hrun hinv
    have hnotall : Reqs.all_satisfied t.postrequisites = false := by
      cases hall : Reqs.all_satisfied t.postrequisites with
      | false => rfl
      | true => rw [hinv.mpr hall] at hrun; exact absurd hrun (by decide)
    rw [incoming_preserves_finished_iff t pr m hinv]
    simp [hnotall]

/-- Witness for C3 at a concrete running instance. -/
theorem c3_witness :
    wTaskC3.state = TState.running
    ∧ (wTaskC3.state = TState.finished ↔
        Reqs.all_satisfied wTaskC3.postrequisites = true)
    ∧ ((incoming wTaskC3 "NORMAL" "p").state = TState.finished ↔
        (Reqs.all_satisfied (incoming wTaskC3 "NORMAL" "p").postrequisites
            = true
          ∧ Reqs.all_satisfied wTaskC3.postrequisites = false)) :=
  ⟨rfl, by simp [wTaskC3, Reqs.all_satisfied],
    c3_finished_iff_postrequisites.2.2 wTaskC3 "NORMAL" "p" rfl
      (by simp [wTaskC3, Reqs.all_satisfied])⟩

/-- `incoming_mark` does not touch the abdicated flag. -/
theorem incoming_mark_abdicated (s : Task) (m : String) :
    (incoming_mark s m).abdicated = s.abdicated := by
  unfold incoming_mark
  split <;> rfl

/-- `incoming` does not touch the abdicated flag. -/
theorem incoming_abdicated (t : Task) (pr m : String) :
    (incoming t pr m).abdicated = t.abdicated := by
  simp only [incoming]
  split <;> simp [set_finished, incoming_mark_abdicated]

/-- `run_if_ready` either leaves the instance unchanged or moves a
not-finished instance to running. -/
theorem run_if_ready_fst (s : Task) (ts : List Task) (r : Nat) :
    (run_if_ready s ts r).1 = s
      ∨ ((run_if_ready s ts r).1 = { s with state := TState.running }
          ∧ s.state ≠ TState.finished) := by
  unfold run_if_ready
  split_ifs with h1 h2 h3 h4 h5
  · exact Or.inl rfl
  · exact Or.inl rfl
  · exact Or.inl rfl
  · refine Or.inr ⟨rfl, ?_⟩
    simpa using h2
  · exact Or.inl rfl
  · exact Or.inl rfl

/-- `runahead_task_base.run_if_ready` either leaves the instance unchanged
or moves a not-finished instance to running. -/
theorem runahead_run_if_ready_fst (s : Task) (ts : List Task) (r : Nat) :
    (runahead_run_if_ready s ts r).1 = s
      ∨ ((runahead_run_if_ready s ts r).1 = { s with state := TState.running }
          ∧ s.state ≠ TState.finished) := by
  unfold runahead_run_if_ready
  split
  · exact Or.inl rfl
  · exact run_if_ready_fst s ts r

/-- `abdicate` either leaves the instance unchanged or flips the flag on a
finished instance. -/
theorem abdicate_fst (s : Task) :
    (abdicate s).1 = s
      ∨ ((abdicate s).1 = { s with abdicated := true }
          ∧ s.state = TState.finished) := by
  unfold abdicate
  split
  next h =>
    simp only [Bool.and_eq_true, beq_iff_eq, Bool.not_eq_true'] at h
    exact Or.inr ⟨rfl, h.1⟩
  next h => exact Or.inl rfl

/-- No operation ever resets the abdicated flag. -/
theorem apply_op_abdicated_mono (s : Task) (op : Op)
    (h : s.abdicated = true) : (apply_op s op).abdicated = true := by
  cases op with
  | incomingOp p m => rw [apply_op, incoming_abdicated]; exact h
  | runIfReadyOp ts r =>
    rcases run_if_ready_fst s ts r with he | ⟨he, _⟩ <;>
      (rw [apply_op, he]; exact h)
  | runaheadRunIfReadyOp ts r =>
    rcases runahead_run_if_ready_fst s ts r with he | ⟨he, _⟩ <;>
      (rw [apply_op, he]; exact h)
  | abdicateOp =>
    rcases abdicate_fst s with he | ⟨he, _⟩ <;> (rw [apply_op, he]; try rfl)
    exact h
  | setFinishedOp => exact h
  | getSatisfactionOp ts => exact h

/-- Once abdicated, `abdicate` keeps the instance unchanged and returns
false. -/
theorem abdicate_of_abdicated (s : Task) (h : s.abdicated = true) :
    abdicate s = (s, false) := by
  unfold abdicate
  rw [if_neg]
  simp [h]

/-- When `abdicate` returns true it has set the flag. -/
theorem abdicate_true_sets_flag (s : Task) (h : (abdicate s).2 = true) :
    (abdicate s).1.abdicated = true := by
  unfold abdicate at h ⊢
  split at h
  next hc => rw [if_pos hc]
  next hc => exact absurd h (by simp)

/-- An already-abdicated instance can never again produce a true
`abdicate`. -/
theorem abdicate_true_count_zero (ops : List Op) :
    ∀ s : Task, s.abdicated = true → abdicate_true_count s ops = 0 := by
  induction ops with
  | nil => intro s _; rfl
  | cons op ops ih =>
    intro s h
    have h2 := apply_op_abdicated_mono s op h
    cases op with
    | abdicateOp =>
      have hfalse : (abdicate s).2 = false := by
        rw [abdicate_of_abdicated s h]

      simp [abdicate_true_count, hfalse, ih _ h2]
    | incomingOp p m => simp [abdicate_true_count, ih _ h2]
    | runIfReadyOp ts r => simp [abdicate_true_count, ih _ h2]
    | runaheadRunIfReadyOp ts r => simp [abdicate_true_count, ih _ h2]
    | setFinishedOp => simp [abdicate_true_count, ih _ h2]
    | getSatisfactionOp ts => simp [abdicate_true_count, ih _ h2]

/-- C7: `abdicate` returns true iff the instance is finished and not yet
abdicated, in which case it sets the one-shot flag; over any operation
sequence it returns true at most once; and every operation preserves the
invariant `abdicated → finished`. -/
theorem c7_abdicate_one_shot :
    (∀ s : Task, (abdicate s).2 = true ↔
        (s.state = TState.finished ∧ s.abdicated = false))
    ∧ (∀ s : Task, (abdicate s).2 = true → (abdicate s).1.abdicated = true)
    ∧ (∀ (s : Task) (op : Op),
        (s.abdicated = true → s.state = TState.finished) →
        ((apply_op s op).abdicated = true →
          (apply_op s op).state = TState.finished))
    ∧ (∀ (s : Task) (ops : List Op), abdicate_true_count s ops ≤ 1) := by
  refine ⟨?_, abdicate_true_sets_flag, ?_, ?_⟩
  · intro s
    unfold abdicate
    split
    next h =>
      simp only [Bool.and_eq_true, beq_iff_eq, Bool.not_eq_true'] at h
      simpa using h
    next h =>
      simp only [Bool.and_eq_true, beq_iff_eq, Bool.not_eq_true',
        not_and] at h
      simp only [show (false = true) = False by simp, false_iff, not_and]
      intro hfin habd
      exact h hfin habd
  · intro s op h
    cases op with
    | incomingOp p m =>
      intro hab
      rw [apply_op, incoming_abdicated] at hab
      rw [apply_op, incoming_state_eq]
      split
      · rfl
      · exact h hab
    | runIfReadyOp ts r =>
      rcases run_if_ready_fst s ts r with he | ⟨he, hne⟩
      · rw [apply_op, he]; exact h
      · rw [apply_op, he]
        intro hab
        exact absurd (h hab) hne
    | runaheadRunIfReadyOp ts r =>
      rcases runahead_run_if_ready_fst s ts r with he | ⟨he, hne⟩
      · rw [apply_op, he]; exact h
      · rw [apply_op, he]
        intro hab
        exact absurd (h hab) hne
    | abdicateOp =>
      rcases abdicate_fst s with he | ⟨he, hfin⟩
      · rw [apply_op, he]; exact h
      · rw [apply_op, he]
        intro _
        exact hfin
    | setFinishedOp => intro _; rfl
    | getSatisfactionOp ts => exact h
  · intro s ops
    induction ops generalizing s with
    | nil => exact Nat.zero_le 1
    | cons op ops ih =>
      cases op with
      | abdicateOp =>
        cases hb : (abdicate s).2 with
        | true =>
          have hflag := abdicate_true_sets_flag s hb
          have hrest := abdicate_true_count_zero ops _ hflag
          simp [abdicate_true_count, hb, apply_op, hrest]
        | false =>
          simpa [abdicate_true_count, hb] using ih ((abdicate s).1)
      | incomingOp p m =>
        simpa [abdicate_true_count] using ih (apply_op s (Op.incomingOp p m))
      | runIfReadyOp ts r =>
        simpa [abdicate_true_count] using
          ih (apply_op s (Op.runIfReadyOp ts r))
      | runaheadRunIfReadyOp ts r =>
        simpa [abdicate_true_count] using
          ih (apply_op s (Op.runaheadRunIfReadyOp ts r))
      | setFinishedOp =>
        simpa [abdicate_true_count] using ih (apply_op s Op.setFinishedOp)
      | getSatisfactionOp ts =>
        simpa [abdicate_true_count] using
          ih (apply_op s (Op.getSatisfactionOp ts))

/-- `set_satisfied` is the identity when no requisite carries the token. -/
theorem Reqs.set_satisfied_not_mem (rs : Reqs) (m : String)
    (h : ∀ p ∈ rs, p.1 ≠ m) : Reqs.set_satisfied rs m = rs := by
  induction rs with
  | nil => rfl
  | cons p rest ih =>
    have hp : (p.1 == m) = false := by
      simp only [beq_eq_false_iff_ne, ne_eq]
      exact h p (List.mem_cons_self p rest)
    have ht : Reqs.set_satisfied rest m = rest :=
      ih (fun q hq => h q (List.mem_cons_of_mem p hq))
    show (if (p.1 == m) = true then (p.1, true) else p)
        :: Reqs.set_satisfied rest m = p :: rest
    rw [hp, ht]
    simp

/-- `is_satisfied` is false when no requisite carries the token. -/
theorem Reqs.is_satisfied_not_mem (rs : Reqs) (m : String)
    (h : ∀ p ∈ rs, p.1 ≠ m) : Reqs.is_satisfied rs m = false := by
  simp only [Reqs.is_satisfied, List.any_eq_false]
  intro p hp
  simp [h p hp]

/-- With unique tokens, marking an already-satisfied requisite changes
nothing. -/
theorem Reqs.set_satisfied_of_satisfied (rs : Reqs) (m : String)
    (hnd : (rs.map Prod.fst).Nodup)
    (hs : Reqs.is_satisfied rs m = true) :
    Reqs.set_satisfied rs m = rs := by
  induction rs with
  | nil => exact absurd hs (by simp [Reqs.is_satisfied])
  | cons p rest ih =>
    rw [List.map_cons, List.nodup_cons] at hnd
    obtain ⟨hpnot, hndrest⟩ := hnd
    have hcons : Reqs.is_satisfied (p :: rest) m
        = ((p.1 == m && p.2) || Reqs.is_satisfied rest m) := rfl
    by_cases hkm : (p.1 == m) = true
    · have hmeq : p.1 = m := by simpa using hkm
      have hrest_not : ∀ q ∈ rest, q.1 ≠ m := by
        intro q hq hqm
        exact hpnot (by rw [hmeq, ← hqm]; exact List.mem_map_of_mem Prod.fst hq)
      have hb : p.2 = true := by
        rw [hcons, Reqs.is_satisfied_not_mem rest m hrest_not] at hs
        simpa [hkm] using hs
      have hhead : Reqs.set_satisfied (p :: rest) m
          = (p.1, true) :: Reqs.set_satisfied rest m := by
        show (if (p.1 == m) = true then (p.1, true) else p)
            :: Reqs.set_satisfied rest m = _
        rw [hkm]
        simp
      rw [hhead, Reqs.set_satisfied_not_mem rest m hrest_not]
      congr 1
      cases p with
      | mk k b =>
        simp only at hb
        rw [hb]
    · have hs' : Reqs.is_satisfied rest m = true := by
        rw [hcons] at hs
        simpa [hkm] using hs
      have hkm' : (p.1 == m) = false := by
        simpa using hkm
      have hhead : Reqs.set_satisfied (p :: rest) m
          = p :: Reqs.set_satisfied rest m := by
        show (if (p.1 == m) = true then (p.1, true) else p)
            :: Reqs.set_satisfied rest m = _
        rw [hkm']
        simp
      rw [hhead, ih hndrest hs']

/-- C8: the effect of `incoming` on the postrequisites does not depend on
the receiver's state (a non-running receiver only adds a warning), the
resulting state is determined by the same rule either way, and a message
naming an already-satisfied postrequisite leaves the postrequisite set
unchanged. -/
theorem c8_incoming_state_independent :
    (∀ (t : Task) (st : TState) (pr m : String),
        (incoming { t with state := st } pr m).postrequisites
          = (incoming t pr m).postrequisites)
    ∧ (∀ (t : Task) (pr m : String),
        (incoming t pr m).state =
          (if Reqs.all_satisfied (incoming t pr m).postrequisites
           then TState.finished else t.state))
    ∧ (∀ (t : Task) (pr m : String),
        (t.postrequisites.map Prod.fst).Nodup →
        Reqs.is_satisfied t.postrequisites m = true →
        (incoming t pr m).postrequisites = t.postrequisites) := by
  refine ⟨?_, incoming_state_eq, ?_⟩
  · intro t st pr m
    rw [incoming_postrequisites_eq, incoming_postrequisites_eq]
  · intro t pr m hnd hs
    rw [incoming_postrequisites_eq]
    split
    · exact Reqs.set_satisfied_of_satisfied _ _ hnd hs
    · rfl

/-- Witness for C8 at a concrete instance with `q` already satisfied. -/
theorem c8_witness :
    (wTaskC3.postrequisites.map Prod.fst).Nodup
    ∧ Reqs.is_satisfied wTaskC3.postrequisites "q" = true
    ∧ (incoming wTaskC3 "NORMAL" "q").postrequisites
        = wTaskC3.postrequisites :=
  ⟨by simp [wTaskC3], by simp [Reqs.is_satisfied, wTaskC3],
    c8_incoming_state_independent.2.2 wTaskC3 "NORMAL" "q"
      (by simp [wTaskC3]) (by simp [Reqs.is_satisfied, wTaskC3])⟩

/-- Witness for C7 at a concrete finished, not yet abdicated instance. -/
theorem c7_witness :
    ((abdicate wTaskC7).2 = true ↔
      (wTaskC7.state = TState.finished ∧ wTaskC7.abdicated = false))
    ∧ ((apply_op wTaskC7 Op.abdicateOp).abdicated = true →
        (apply_op wTaskC7 Op.abdicateOp).state = TState.finished)
    ∧ abdicate_true_count wTaskC7 [Op.abdicateOp, Op.abdicateOp] ≤ 1 :=
  ⟨c7_abdicate_one_shot.1 wTaskC7,
   c7_abdicate_one_shot.2.2.1 wTaskC7 Op.abdicateOp (fun _ => rfl),
   c7_abdicate_one_shot.2.2.2 wTaskC7 [Op.abdicateOp, Op.abdicateOp]⟩

/-- In a `≤`-sorted list, the first element `≥ a` is `a` itself whenever `a`
is a member. -/
theorem find?_sorted_self (l : List Nat) (a : Nat)
    (hs : List.Pairwise (· ≤ ·) l) (ha : a ∈ l) :
    l.find? (fun v => decide (a ≤ v)) = some a := by
  induction l with
  | nil => cases ha
  | cons b tl ih =>
    rw [List.pairwise_cons] at hs
    obtain ⟨hb, htl⟩ := hs
    by_cases hab : a ≤ b
    · have hba : b = a := by
        rcases List.mem_cons.mp ha with h | h
        · rw [h]
        · have := hb a h
          omega
      rw [List.find?_cons_of_pos _ (by simpa using hab), hba]
    · have ha' : a ∈ tl := by
        rcases List.mem_cons.mp ha with h | h
        · exact absurd (le_of_eq h) hab
        · exact h
      rw [List.find?_cons_of_neg _ (by simpa using hab)]
      exact ih htl ha'

/-- When the hour of `rt` occurs in the (sorted, sentinel-extended) list,
`nearest_ref_time` returns `rt` unchanged. -/
theorem nearest_ref_time_of_mem (first : Nat) (rest : List Nat) (rt : Nat)
    (hsort : List.Pairwise (· ≤ ·) ((first :: rest) ++ [24 + first]))
    (hmem : rt % 24 ∈ (first :: rest) ++ [24 + first]) :
    nearest_ref_time (first :: rest) rt
      = some (rt, (first :: rest) ++ [24 + first]) := by
  show (match ((first :: rest) ++ [24 + first]).find?
        (fun vh => decide (rt % 24 ≤ vh)) with
      | some vh =>
          some (increment rt (vh - rt % 24), (first :: rest) ++ [24 + first])
      | none => none)
    = some (rt, (first :: rest) ++ [24 + first])
  rw [find?_sorted_self _ _ hsort hmem]
  simp [increment]

/-- C4: `nearest_ref_time` (for a nonempty, sorted valid-hours list with
entries below 24) always succeeds, is idempotent on its result even through
the list mutation it performs, and returns the stamp unchanged when the
stamp's hour is itself a valid hour. -/
theorem c4_nearest_ref_time_idempotent (vh : List Nat) (rt : Nat)
    (hne : vh ≠ []) (hsort : List.Pairwise (· ≤ ·) vh)
    (hlt : ∀ x ∈ vh, x < 24) :
    (∃ rt1 vh1, nearest_ref_time vh rt = some (rt1, vh1)
      ∧ (∃ vh2, nearest_ref_time vh1 rt1 = some (rt1, vh2)))
    ∧ (rt % 24 ∈ vh → ∃ vh1, nearest_ref_time vh rt = some (rt, vh1)) := by
  cases vh with
  | nil => exact absurd rfl hne
  | cons first rest =>
  have hfirst24 : first < 24 := hlt first (List.mem_cons_self _ _)
  have hsort' :
      List.Pairwise (· ≤ ·) ((first :: rest) ++ [24 + first]) := by
    rw [List.pairwise_append]
    refine ⟨hsort, List.pairwise_singleton _ _, ?_⟩
    intro x hx y hy
    rw [List.mem_singleton] at hy
    have := hlt x hx
    omega
  constructor
  · -- the find? always succeeds thanks to the sentinel
    have hsent : (24 + first) ∈ (first :: rest) ++ [24 + first] := by
      simp
    have hp : (fun v => decide (rt % 24 ≤ v)) (24 + first) = true := by
      simp only [decide_eq_true_eq]
      omega
    have hsome :
        (((first :: rest) ++ [24 + first]).find?
          (fun v => decide (rt % 24 ≤ v))).isSome :=
      List.find?_isSome.mpr ⟨24 + first, hsent, hp⟩
    obtain ⟨v, hv⟩ := Option.isSome_iff_exists.mp hsome
    have hvle : rt % 24 ≤ v := by
      have := List.find?_some hv
      simpa using this
    have hvmem : v ∈ (first :: rest) ++ [24 + first] :=
      List.mem_of_find?_eq_some hv
    have h1 : nearest_ref_time (first :: rest) rt
        = some (rt + (v - rt % 24), (first :: rest) ++ [24 + first]) := by
      show (match ((first :: rest) ++ [24 + first]).find?
            (fun vh => decide (rt % 24 ≤ vh)) with
          | some vh =>
              some (increment rt (vh - rt % 24),
                (first :: rest) ++ [24 + first])
          | none => none)
        = some (rt + (v - rt % 24), (first :: rest) ++ [24 + first])
      rw [hv]
      rfl
    refine ⟨rt + (v - rt % 24), (first :: rest) ++ [24 + first], h1, ?_⟩
    -- second call: the adjusted stamp's hour is in the mutated list
    have hmod : (rt + (v - rt % 24)) % 24 = v % 24 := by omega
    have hvmod : v % 24 ∈ (first :: rest) := by
      rcases List.mem_append.mp hvmem with h | h
      · have : v < 24 := hlt v h
        rwa [Nat.mod_eq_of_lt this]
      · rw [List.mem_singleton] at h
        subst h
        have : (24 + first) % 24 = first := by omega
        rw [this]
        exact List.mem_cons_self _ _
    have hsort'' :
        List.Pairwise (· ≤ ·)
          ((first :: (rest ++ [24 + first])) ++ [24 + first]) := by
      rw [List.pairwise_append]
      refine ⟨by simpa using hsort', List.pairwise_singleton _ _, ?_⟩
      intro x hx y hy
      rw [List.mem_singleton] at hy
      subst hy
      rcases List.mem_cons.mp hx with h | h
      · omega
      · rcases List.mem_append.mp h with h' | h'
        · have := hlt x (List.mem_cons_of_mem _ h')
          omega
        · rw [List.mem_singleton] at h'
          omega
    have hmem'' :
        (rt + (v - rt % 24)) % 24
          ∈ (first :: (rest ++ [24 + first])) ++ [24 + first] := by
      rw [hmod]
      rcases List.mem_cons.mp hvmod with h | h
      · exact List.mem_cons.mpr (Or.inl h)
      · exact List.mem_cons.mpr
          (Or.inr (List.mem_append_left _ (List.mem_append_left _ h)))
    have h2 := nearest_ref_time_of_mem first (rest ++ [24 + first])
      (rt + (v - rt % 24)) hsort'' hmem''
    rw [List.cons_append] at h2
    exact ⟨(first :: (rest ++ [24 + first])) ++ [24 + first], h2⟩
  · intro hmem
    exact ⟨(first :: rest) ++ [24 + first],
      nearest_ref_time_of_mem first rest rt hsort'
        (List.mem_append_left _ hmem)⟩

/-- Witness for C4 at the valid-hours list of the `downloader` class and a
stamp with hour 3. -/
theorem c4_witness :
    (([0, 6, 12, 18] : List Nat) ≠ []
      ∧ List.Pairwise (· ≤ ·) ([0, 6, 12, 18] : List Nat)
      ∧ (∀ x ∈ ([0, 6, 12, 18] : List Nat), x < 24))
    ∧ ((∃ rt1 vh1, nearest_ref_time [0, 6, 12, 18] 3 = some (rt1, vh1)
        ∧ (∃ vh2, nearest_ref_time vh1 rt1 = some (rt1, vh2)))
      ∧ (3 % 24 ∈ ([0, 6, 12, 18] : List Nat) →
          ∃ vh1, nearest_ref_time [0, 6, 12, 18] 3 = some (3, vh1))) :=
  ⟨⟨by decide, by decide, by decide⟩,
    c4_nearest_ref_time_idempotent [0, 6, 12, 18] 3 (by decide) (by decide)
      (by decide)⟩

/-- C5 (code bug): `nearest_ref_time` aliases the class attribute
`valid_hours` (`foo = self.valid_hours; foo.append(extra_vh)`), so every
call appends the sentinel `24 + valid_hours[0]` to the class's list: the
list afterwards differs from the list before, contradicting both the spec's
immutability statement and the obvious intent of a pure lookup helper. -/
theorem c5_valid_hours_mutated :
    nearest_ref_time [0, 6, 12, 18] 0 = some (0, [0, 6, 12, 18, 24])
      ∧ ([0, 6, 12, 18, 24] : List Nat) ≠ [0, 6, 12, 18] := by
  constructor
  · rfl
  · decide

/-- A list is a `isPrefixOf` of itself followed by anything. -/
theorem isPrefixOf_append_self (l t : List Char) :
    l.isPrefixOf (l ++ t) = true := by
  induction l with
  | nil => simp
  | cons a as ih => simp [List.isPrefixOf, ih]

/-- A vacation message is not the "started" output. -/
theorem vacation_ne_started (t : List Char) :
    TaskMessage.VACATION_MESSAGE_PRE ++ t ≠ TaskMessage.TASK_OUTPUT_STARTED := by
  intro h
  have h1 : (TaskMessage.VACATION_MESSAGE_PRE ++ t).head? = some 'T' := rfl
  rw [h] at h1
  exact absurd h1 (by decide)

/-- A vacation message is not the "succeeded" output. -/
theorem vacation_ne_succeeded (t : List Char) :
    TaskMessage.VACATION_MESSAGE_PRE ++ t
      ≠ TaskMessage.TASK_OUTPUT_SUCCEEDED := by
  intro h
  have h1 : (TaskMessage.VACATION_MESSAGE_PRE ++ t).head? = some 'T' := rfl
  rw [h] at h1
  exact absurd h1 (by decide)

/-- C9: processing a vacation message rewrites the job status file to
exactly the prior lines that do not start with `CYLC_JOB_`, in their
original order, followed by the single appended
`CYLC_MESSAGE=<time>|<severity>|<text>` record. -/
theorem c9_vacation_rewrite (env : TaskMessage.MsgEnv)
    (file : List (List Char)) (text : List Char) :
    TaskMessage.update_job_status_file env file
        [TaskMessage.VACATION_MESSAGE_PRE ++ text]
      = (file.filter (fun line => !("CYLC_JOB_".toList.isPrefixOf line)))
        ++ [TaskMessage.CYLC_MESSAGE ++ '=' :: (env.true_event_time ++ '|'
              :: (env.severity ++ '|'
                :: (TaskMessage.VACATION_MESSAGE_PRE ++ text)))] := by
  have h1 := vacation_ne_started text
  have h2 := vacation_ne_succeeded text
  have h3 : TaskMessage.FAIL_MESSAGE_PRE.isPrefixOf
      (TaskMessage.VACATION_MESSAGE_PRE ++ text) = false := rfl
  have h4 : TaskMessage.ABORT_MESSAGE_PRE.isPrefixOf
      (TaskMessage.VACATION_MESSAGE_PRE ++ text) = false := rfl
  have h5 : TaskMessage.VACATION_MESSAGE_PRE.isPrefixOf
      (TaskMessage.VACATION_MESSAGE_PRE ++ text) = true :=
    isPrefixOf_append_self _ _
  simp [TaskMessage.update_job_status_file, TaskMessage.jobStatusStep,
    TaskMessage.cylcMessageLine, h1, h2, h3, h4, h5]

/-- C6 counterexample: constructing with the unknown initial-state string
"bogus" reaches the `sys.exit(1)` call, i.e. terminates the scheduler
process rather than merely failing the one construction. -/
theorem c6_counterexample :
    task_init "x" 0 [] ["p"] "bogus" = Except.error InitError.systemExit :=
  rfl

/-- C6 (amended): construction with an initial-state string outside the
accepted set logs a critical message and calls `sys.exit(1)`, terminating
the whole scheduler process. -/
theorem c6_unknown_state_exits (name : String) (rt : Nat)
    (pre post : List String) (st : String)
    (h1 : st ≠ "") (h2 : st ≠ "waiting") (h3 : st ≠ "finished")
    (h4 : st ≠ "ready") :
    task_init name rt pre post st = Except.error InitError.systemExit := by
  unfold task_init
  rw [if_neg h1, if_neg h2, if_neg h3, if_neg h4]

/-- Witness for the amended C6 at the concrete state string "bogus". -/
theorem c6_witness :
    (("bogus" : String) ≠ "" ∧ ("bogus" : String) ≠ "waiting"
      ∧ ("bogus" : String) ≠ "finished" ∧ ("bogus" : String) ≠ "ready")
    ∧ task_init "x" 0 [] ["p"] "bogus" = Except.error InitError.systemExit :=
  ⟨⟨by decide, by decide, by decide, by decide⟩,
    c6_unknown_state_exits "x" 0 [] ["p"] "bogus" (by decide) (by decide)
      (by decide) (by decide)⟩

/-- `charToDigit` inverts `digitChar` on digit values. -/
theorem charToDigit_digitChar (d : Nat) (h : d < 10) :
    charToDigit (digitChar d) = d := by
  interval_cases d <;> rfl

/-- `digitChar` of a digit value is a digit character. -/
theorem isDigit_digitChar (d : Nat) (h : d < 10) :
    (digitChar d).isDigit = true := by
  interval_cases d <;> rfl

/-- Parsing inverts printing on natural numbers. -/
theorem parseDigits_natToStr (n : Nat) :
    parseDigits (natToStr n) = some n := by
  by_cases h0 : n = 0
  · subst h0; rfl
  · have hd : ∀ d ∈ Nat.digits 10 n, d < 10 :=
      fun d hd => Nat.digits_lt_base (by norm_num) hd
    have hne : Nat.digits 10 n ≠ [] := Nat.digits_ne_nil_iff_ne_zero.mpr h0
    unfold natToStr
    rw [if_neg h0]
    unfold parseDigits
    rw [if_neg (by simp [hne]), if_pos ?hall]
    case hall =>
      rw [List.all_eq_true]
      intro c hc
      rcases List.mem_map.mp hc with ⟨d, hdm, rfl⟩
      exact isDigit_digitChar d (hd d (List.mem_reverse.mp hdm))
    rw [List.map_map]
    rw [show List.map (charToDigit ∘ digitChar) ((Nat.digits 10 n).reverse)
        = List.map id ((Nat.digits 10 n).reverse) from
      List.map_congr_left (fun d hd' =>
        charToDigit_digitChar d (hd d (List.mem_reverse.mp hd')))]
    rw [List.map_id, List.reverse_reverse, Nat.ofDigits_digits]

/-- The decimal string of a natural number is nonempty. -/
theorem natToStr_ne_nil (n : Nat) : natToStr n ≠ [] := by
  unfold natToStr
  split
  · simp
  · simp [Nat.digits_ne_nil_iff_ne_zero.mpr (by assumption)]

/-- The decimal string of a natural number does not start with a minus. -/
theorem natToStr_head_ne_minus (n : Nat) (c : Char) (cs : List Char)
    (h : natToStr n = c :: cs) : c ≠ '-' := by
  unfold natToStr at h
  split at h
  · cases h; decide
  · have hc : c ∈ List.map digitChar (Nat.digits 10 n).reverse := by
      rw [h]; exact List.mem_cons_self _ _
    rcases List.mem_map.mp hc with ⟨d, hdm, rfl⟩
    have : d < 10 :=
      Nat.digits_lt_base (by norm_num) (List.mem_reverse.mp hdm)
    interval_cases d <;> decide

/-- Python's `int` inverts Python's `str` on every integer. -/
theorem pyInt_pyStr (z : Int) : pyInt (pyStr z) = some z := by
  unfold pyStr
  split
  next hneg =>
    show (if ('-' : Char) = '-'
        then (parseDigits (('-' :: natToStr z.natAbs).tail)).map
          (fun n => -(n : Int))
        else (parseDigits ('-' :: natToStr z.natAbs)).map
          (fun n => (n : Int))) = some z
    rw [if_pos rfl]
    show (parseDigits (natToStr z.natAbs)).map (fun n => -(n : Int)) = some z
    rw [parseDigits_natToStr]
    show some (-(z.natAbs : Int)) = some z
    congr 1
    omega
  next hneg =>
    cases hcs : natToStr z.toNat with
    | nil => exact absurd hcs (natToStr_ne_nil _)
    | cons c cs =>
      have hcne := natToStr_head_ne_minus z.toNat c cs hcs
      show (if c = '-'
          then (parseDigits (c :: cs).tail).map (fun n => -(n : Int))
          else (parseDigits (c :: cs)).map (fun n => (n : Int))) = some z
      rw [if_neg hcne]
      rw [show (c :: cs) = natToStr z.toNat from hcs.symm]
      rw [parseDigits_natToStr]
      show some ((z.toNat : Int)) = some z
      congr 1
      omega

/-- Decimal digits of 8. -/
theorem digits_ten_eight : Nat.digits 10 8 = [8] := by
  rw [Nat.digits_def' (by norm_num : (1 : ℕ) < 10) (by norm_num : 0 < 8)]
  norm_num

/-- Decimal digits of 7. -/
theorem digits_ten_seven : Nat.digits 10 7 = [7] := by
  rw [Nat.digits_def' (by norm_num : (1 : ℕ) < 10) (by norm_num : 0 < 7)]
  norm_num

/-- `str(8)`. -/
theorem pyStr_eight : pyStr 8 = ['8'] := by
  unfold pyStr
  rw [if_neg (by norm_num)]
  show natToStr 8 = ['8']
  unfold natToStr
  rw [if_neg (by norm_num), digits_ten_eight]
  rfl

/-- `str(7)`. -/
theorem pyStr_seven : pyStr 7 = ['7'] := by
  unfold pyStr
  rw [if_neg (by norm_num)]
  show natToStr 7 = ['7']
  unfold natToStr
  rw [if_neg (by norm_num), digits_ten_seven]
  rfl

/-- `int("007") = 7`. -/
theorem pyInt_dd7 : pyInt ['0', '0', '7'] = some 7 := rfl

/-- `int("8") = 8`. -/
theorem pyInt_d8 : pyInt ['8'] = some 8 := rfl

/-- C10 counterexample: "007" denotes the integer 7, but
`offset(next("007"), 1)` is "7", not "007": the round-trip fails on a
decimal tag with leading zeros, because `str(int(tag))` canonicalises. -/
theorem c10_counterexample :
    pyInt ['0', '0', '7'] = some 7
    ∧ ¬ ((async.next ['0', '0', '7']).bind
          (fun t => async.offset t ['1']) = some ['0', '0', '7']) := by
  refine ⟨rfl, ?_⟩
  have h1 : async.next ['0', '0', '7'] = some ['8'] := by
    unfold async.next
    rw [pyInt_dd7]
    show some (pyStr (7 + 1)) = some ['8']
    norm_num [pyStr_eight]
  have h2 : async.offset ['8'] ['1'] = some ['7'] := by
    unfold async.offset
    rw [pyInt_d8]
    show some (pyStr ((8 : Int) - 1)) = some ['7']
    norm_num [pyStr_seven]
  have h3 : (async.next ['0', '0', '7']).bind
      (fun t => async.offset t ['1']) = some ['7'] := by
    rw [h1]
    show async.offset ['8'] ['1'] = some ['7']
    exact h2
  rw [h3]
  simp

/-- C10 (amended): for every canonical decimal tag (the `str` image of an
integer), `next` yields the decimal string of the successor,
`offset(next(tag), 1)` round-trips back to the tag, `valid` is true and
`initial_adjust_up` is the identity. -/
theorem c10_async_cycler (z : Int) :
    async.next (pyStr z) = some (pyStr (z + 1))
    ∧ (async.next (pyStr z)).bind (fun t => async.offset t ['1'])
        = some (pyStr z)
    ∧ async.valid (pyStr z) = true
    ∧ async.initial_adjust_up (pyStr z) = pyStr z := by
  have h1 : async.next (pyStr z) = some (pyStr (z + 1)) := by
    unfold async.next
    rw [pyInt_pyStr]
    rfl
  refine ⟨h1, ?_, rfl, rfl⟩
  rw [h1]
  show async.offset (pyStr (z + 1)) ['1'] = some (pyStr z)
  unfold async.offset
  rw [pyInt_pyStr]
  show some (pyStr (z + 1 - 1)) = some (pyStr z)
  simp

end Cylc
